import Mathlib

/-!
Verification development for the kcptun client (`client/main.go`).

The Go source is shallowly embedded below: the client `Config` struct, the
session-pool acceptor loop, the scavenger routine, the control-FIFO reader
and the cipher-selection switch become Lean functions.  Machine integers
are modelled as `Int` (Go's `uint16` truncation is written out as `% 65536`),
time instants as `Int` seconds, mux sessions as abstract `Nat` identifiers
together with an environment predicate giving each session's `IsClosed()`
answer, and Go runtime panics (nil dereference, index out of range,
integer division by zero) as `Option.none`.
-/

namespace Kcptun

/-- The client `Config` struct, restricted to the fields `main.go` reads.
String-valued and boolean fields keep their Go types; all Go `int` fields
become `Int`. -/
structure Config where
  localAddr : String
  remoteAddr : String
  key : String
  crypt : String
  mode : String
  conn : Int
  autoExpire : Int
  scavengeTTL : Int
  mtu : Int
  sndWnd : Int
  rcvWnd : Int
  dataShard : Int
  parityShard : Int
  dscp : Int
  noComp : Bool
  sockBuf : Int
  smuxVer : Int
  smuxBuf : Int
  streamBuf : Int
  keepAlive : Int
  logFile : String
  fifo : String
  quiet : Bool
  tcp : Bool
deriving DecidableEq, Repr

/-- The configuration produced by the CLI defaults of `main.go`
(flag default values, lines 98-257). -/
def baseConfig : Config where
  localAddr := ":12948"
  remoteAddr := "vps:29900"
  key := "it's a secrect"
  crypt := "aes"
  mode := "fast"
  conn := 1
  autoExpire := 0
  scavengeTTL := 600
  mtu := 1350
  sndWnd := 128
  rcvWnd := 512
  dataShard := 10
  parityShard := 3
  dscp := 0
  noComp := false
  sockBuf := 4194304
  smuxVer := 1
  smuxBuf := 4194304
  streamBuf := 2097152
  keepAlive := 10
  logFile := ""
  fifo := ""
  quiet := false
  tcp := false

/-- `maxSmuxVer = 2` (constant block of `main.go`). -/
def maxSmuxVer : Int := 2

/-- The startup parameters check (`main.go` line 346):
`if config.SmuxVer > maxSmuxVer { log.Fatal(...) }`.
Returns `true` iff the process dies with `log.Fatal` at this check. -/
def startupFatalSmux (config : Config) : Bool :=
  decide (config.smuxVer > maxSmuxVer)

/-- The `timedSession` struct of `main.go`.  A `*smux.Session` is an
abstract identifier; the nil pointer is `none`.  `expiryDate` is an
instant in seconds. -/
structure TimedSession where
  session : Option Nat
  expiryDate : Int
deriving DecidableEq, Repr

/-- `numconn := uint16(config.Conn)` (`main.go` line 451): Go's conversion
of an `int` to `uint16` keeps the low 16 bits, i.e. the value modulo 2^16. -/
def numconn (config : Config) : Nat :=
  (config.conn % 65536).toNat

/-- The pool array `muxes := make([]timedSession, numconn)` at startup:
`numconn` slots holding the zero value (nil session, zero expiry). -/
def initMuxes (config : Config) : List TimedSession :=
  List.replicate (numconn config) ⟨none, 0⟩

/-- One accept iteration's environment: the instant `time.Now()` returns,
the session `waitConn()` would deliver if a refill happens (always non-nil,
since `waitConn` retries until success), and each existing session's
`IsClosed()` answer at this instant. -/
structure AcceptEvent where
  now : Int
  fresh : Nat
  closedEnv : Nat → Bool

/-- The acceptor goroutine's mutable state: the `uint16` round-robin
counter `rr` (kept `< 65536`) and the `muxes` slot array. -/
structure AcceptorState where
  rr : Nat
  muxes : List TimedSession
deriving DecidableEq, Repr

/-- The staleness test of `main.go` lines 467-468:
`muxes[idx].session == nil || muxes[idx].session.IsClosed() ||
(config.AutoExpire > 0 && time.Now().After(muxes[idx].expiryDate))`,
with Go's short-circuit evaluation (no `IsClosed` call on a nil session).
`time.Now().After(t)` is strict: `now > t`. -/
def slotStale (config : Config) (closedEnv : Nat → Bool) (now : Int)
    (s : TimedSession) : Bool :=
  match s.session with
  | none => true
  | some sid => closedEnv sid ||
      (decide (config.autoExpire > 0) && decide (now > s.expiryDate))

/-- The observable outcome of one accept iteration. -/
structure StepResult where
  state : AcceptorState
  /-- messages sent on `chScavenger` during this iteration -/
  sent : List TimedSession
  /-- the session handed to `handleClient`, on which the stream is opened -/
  opened : Option Nat
  /-- whether `waitConn()` was called (slot refilled) -/
  refilled : Bool
  /-- `idx := rr % numconn`, the slot chosen for this accept -/
  idx : Nat
deriving DecidableEq, Repr

/-- One iteration of the acceptor loop (`main.go` lines 459-478).
`none` models the runtime panic `integer divide by zero` raised by
`idx := rr % numconn` when `numconn = 0`.  On a stale slot the code dials
(`waitConn`), stores the new session with expiry `now + AutoExpire`
seconds, and — only when `AutoExpire > 0` — sends the just-stored slot
value `muxes[idx]` (the NEW timed session) on `chScavenger`; it then hands
`muxes[idx].session` to `handleClient` and increments `rr` (wrapping as
`uint16`). -/
def acceptStep (config : Config) (e : AcceptEvent) (st : AcceptorState) :
    Option StepResult :=
  if numconn config = 0 then none
  else if slotStale config e.closedEnv e.now
      (st.muxes.getD (st.rr % numconn config) ⟨none, 0⟩) then
    some { state := ⟨(st.rr + 1) % 65536,
             st.muxes.set (st.rr % numconn config)
               ⟨some e.fresh, e.now + config.autoExpire⟩⟩
           sent := if config.autoExpire > 0 then
                     [⟨some e.fresh, e.now + config.autoExpire⟩] else []
           opened := some e.fresh
           refilled := true
           idx := st.rr % numconn config }
  else
    some { state := ⟨(st.rr + 1) % 65536, st.muxes⟩
           sent := []
           opened := (st.muxes.getD (st.rr % numconn config) ⟨none, 0⟩).session
           refilled := false
           idx := st.rr % numconn config }

/-- A sequence of accept iterations; collects every iteration's result.
`none` propagates a panic of any iteration. -/
def runAccepts (config : Config) (st : AcceptorState) :
    List AcceptEvent → Option (List StepResult)
  | [] => some []
  | e :: es => do
      let r ← acceptStep config e st
      let rs ← runAccepts config r.state es
      pure (r :: rs)

/-- Whether the `scavenger` routine proceeds past its guard
(`main.go` lines 531-533): `if config.AutoExpire <= 0 { return }`. -/
def scavengerEntersLoop (config : Config) : Bool :=
  !decide (config.autoExpire ≤ 0)

/-- The scavenger's receive case (`main.go` lines 540-543): append the
item with its expiry extended by `ScavengeTTL` seconds. -/
def scavengeRecv (config : Config) (item : TimedSession)
    (sessionList : List TimedSession) : List TimedSession :=
  sessionList ++ [⟨item.session, item.expiryDate + config.scavengeTTL⟩]

/-- One scavenger tick (`main.go` lines 544-561).  Returns
`(newList, normallyClosed, ttlClosed)`: the kept entries in order, the
entries removed because `IsClosed()` (logged "normally closed"), and the
entries removed because `now > expiryDate` (whose sessions get `Close()`
called, logged "closed due to ttl").  `none` models the nil-pointer panic
`IsClosed` would raise on a nil session (unreachable in the program: only
freshly dialed sessions are enqueued). -/
def scavengeTick (closedEnv : Nat → Bool) (now : Int) :
    List TimedSession →
      Option (List TimedSession × List TimedSession × List TimedSession)
  | [] => some ([], [], [])
  | s :: rest =>
    s.session.bind fun sid =>
      (scavengeTick closedEnv now rest).bind fun r =>
        if closedEnv sid then some (r.1, s :: r.2.1, r.2.2)
        else if now > s.expiryDate then some (r.1, r.2.1, s :: r.2.2)
        else some (s :: r.1, r.2.1, r.2.2)

/-- The scavenger's test "its mux session reports closed" on a
`timedSession` (the nil case is never consulted by `scavengeTick`). -/
def sessClosed (closedEnv : Nat → Bool) (s : TimedSession) : Bool :=
  match s.session with
  | some sid => closedEnv sid
  | none => false

/-- `startsWith s pat`: the character list `s` begins with `pat`. -/
def startsWith : List Char → List Char → Bool
  | _, [] => true
  | [], _ :: _ => false
  | c :: cs, d :: ds => c == d && startsWith cs ds

/-- `hasSub pat s`: `pat` occurs as a contiguous substring of `s`
(Go's `strings.Contains(s, pat)`). -/
def hasSub (pat : List Char) : List Char → Bool
  | [] => startsWith [] pat
  | c :: cs => startsWith (c :: cs) pat || hasSub pat cs

/-- Split a character list at every space, keeping empty fields:
Go's `strings.Split(s, " ")` (never returns an empty list). -/
def splitSpace : List Char → List (List Char)
  | [] => [[]]
  | c :: cs =>
    if c == ' ' then [] :: splitSpace cs
    else
      match splitSpace cs with
      | [] => [[c]]
      | t :: ts => (c :: t) :: ts

/-- `strings.Split(line, " ")` on a string. -/
def splitLine (line : String) : List String :=
  (splitSpace line.data).map fun l => String.mk l

/-- Decimal digit value of a character, if it is a digit. -/
def digitVal (c : Char) : Option Nat :=
  if '0' ≤ c ∧ c ≤ '9' then some (c.toNat - '0'.toNat) else none

/-- Accumulate a decimal number over a digit list; `none` on any
non-digit. -/
def digitsAcc : Nat → List Char → Option Nat
  | acc, [] => some acc
  | acc, c :: cs =>
    match digitVal c with
    | some d => digitsAcc (acc * 10 + d) cs
    | none => none

/-- Go's `strconv.Atoi` syntax: an optional sign followed by one or more
decimal digits; anything else is a parse error. -/
def parseIntChars : List Char → Option Int
  | [] => none
  | '+' :: cs =>
    match cs with
    | [] => none
    | _ :: _ => (digitsAcc 0 cs).map Int.ofNat
  | '-' :: cs =>
    match cs with
    | [] => none
    | _ :: _ => (digitsAcc 0 cs).map fun n => -(Int.ofNat n)
  | cs => (digitsAcc 0 cs).map Int.ofNat

/-- `strconv.Atoi` as used in `main.go` lines 502-503: the error is
discarded, so a string that fails to parse contributes the zero value. -/
def atoi (s : String) : Int :=
  (parseIntChars s.data).getD 0

/-- The observable outcome of handling a single FIFO line. -/
structure FifoResult where
  /-- the configuration after the line (its `DataShard`/`ParityShard`) -/
  config : Config
  /-- indices of the `connes` slots on which `SetFEC(ds, ps)` was invoked -/
  fecCalls : List Nat
  /-- whether the line was logged as "Unknown call" -/
  unknown : Bool
deriving DecidableEq, Repr

/-- The slot indices the FIFO reader's `for addr := range connes` loop
invokes `SetFEC` on: exactly those holding a non-nil `*kcp.UDPSession`,
in index order (`main.go` lines 508-512). -/
def fecCallIdx (connes : List (Option Nat)) : List Nat :=
  (List.range connes.length).filter fun i => (connes.getD i none).isSome

/-- Handling of one line by the FIFO reader goroutine (`main.go` lines
497-516).  The line is split on single spaces; a line is recognized as the
`fec` command iff its FIRST token CONTAINS `"fec"` as a substring
(`strings.Contains(message[0], "fec")`).  A recognized line indexes
`message[1]` and `message[2]` unconditionally, so fewer than three tokens
is the runtime panic `index out of range`, modelled as `none`.  Otherwise
`ds`/`ps` are `Atoi`'d leniently and, when they differ from the current
shard counts, the config is mutated and `SetFEC` is called on every
non-nil transport; an unrecognized line logs "Unknown call". -/
def fifoStep (config : Config) (connes : List (Option Nat)) (line : String) :
    Option FifoResult :=
  if hasSub "fec".data (((splitLine line)).headD "").data then
    if (splitLine line).length < 3 then none
    else if atoi ((splitLine line).getD 1 "") ≠ config.dataShard ∨
        atoi ((splitLine line).getD 2 "") ≠ config.parityShard then
      some ⟨{ config with
                dataShard := atoi ((splitLine line).getD 1 ""),
                parityShard := atoi ((splitLine line).getD 2 "") },
            fecCallIdx connes, false⟩
    else some ⟨config, [], false⟩
  else some ⟨config, [], true⟩

/-- A constructed block cipher: which library constructor was used and how
many of the 32 derived key bytes it was given (`pass[:n]`). -/
structure BlockSpec where
  ctor : String
  keyLen : Nat
deriving DecidableEq, Repr

/-- The `switch config.Crypt` of `main.go` lines 354-384.  Returns the
crypt name the config ends up with and the cipher object (`none` is Go's
nil `kcp.BlockCrypt`, arising only for `"null"`).  The default case
overwrites `config.Crypt` with `"aes"` and uses the full 32-byte key. -/
def cryptSelect (crypt : String) : String × Option BlockSpec :=
  if crypt = "null" then (crypt, none)
  else if crypt = "sm4" then (crypt, some ⟨"SM4", 16⟩)
  else if crypt = "tea" then (crypt, some ⟨"TEA", 16⟩)
  else if crypt = "xor" then (crypt, some ⟨"SimpleXOR", 32⟩)
  else if crypt = "none" then (crypt, some ⟨"None", 32⟩)
  else if crypt = "aes-128" then (crypt, some ⟨"AES", 16⟩)
  else if crypt = "aes-192" then (crypt, some ⟨"AES", 24⟩)
  else if crypt = "blowfish" then (crypt, some ⟨"Blowfish", 32⟩)
  else if crypt = "twofish" then (crypt, some ⟨"Twofish", 32⟩)
  else if crypt = "cast5" then (crypt, some ⟨"Cast5", 16⟩)
  else if crypt = "3des" then (crypt, some ⟨"TripleDES", 24⟩)
  else if crypt = "xtea" then (crypt, some ⟨"XTEA", 16⟩)
  else if crypt = "salsa20" then (crypt, some ⟨"Salsa20", 32⟩)
  else ("aes", some ⟨"AES", 32⟩)

/-- The crypt names that have their own `case` in the switch. -/
def enumeratedCrypts : List String :=
  ["null", "sm4", "tea", "xor", "none", "aes-128", "aes-192", "blowfish",
   "twofish", "cast5", "3des", "xtea", "salsa20"]

/-- The guarantee of claim C1 specialized to a two-accept execution: any
session sent on the scavenger channel during the first accept is not the
session on which the later accepted connection's stream is opened. -/
def scavengedNeverReused2 (config : Config) (st : AcceptorState)
    (e1 e2 : AcceptEvent) : Prop :=
  ∀ r1 r2 ts, acceptStep config e1 st = some r1 →
    acceptStep config e2 r1.state = some r2 →
    ts ∈ r1.sent → r2.opened ≠ ts.session

/-- `slotStale` unfolded into the specification's wording: the slot is
stale iff its session is nil, or its session reports closed, or
`AutoExpire > 0` and `now` is strictly after the expiry instant. -/
theorem slotStale_iff (config : Config) (closedEnv : Nat → Bool) (now : Int)
    (s : TimedSession) :
    slotStale config closedEnv now s = true ↔
      (s.session = none ∨
       (∃ sid, s.session = some sid ∧ closedEnv sid = true) ∨
       (0 < config.autoExpire ∧ s.expiryDate < now)) := by
  cases h : s.session with
  | none => simp [slotStale, h]
  | some sid =>
      simp only [slotStale, h, Bool.or_eq_true, Bool.and_eq_true,
        decide_eq_true_eq, Option.some.injEq, reduceCtorEq, false_or]
      constructor
      · rintro (hc | ⟨h1, h2⟩)
        · exact Or.inl ⟨sid, rfl, hc⟩
        · exact Or.inr ⟨h1, h2⟩
      · rintro (⟨sid', hs, hc⟩ | ⟨h1, h2⟩)
        · cases hs; exact Or.inl hc
        · exact Or.inr ⟨h1, h2⟩

/-- When `numconn ≠ 0`, an accept iteration never panics, its chosen slot
is `rr % numconn`, and the counter advances by one modulo 2^16. -/
theorem acceptStep_shape (config : Config) (e : AcceptEvent)
    (st : AcceptorState) (h0 : numconn config ≠ 0) :
    ∃ r, acceptStep config e st = some r ∧
      r.idx = st.rr % numconn config ∧
      r.state.rr = (st.rr + 1) % 65536 := by
  unfold acceptStep
  rw [if_neg h0]
  split
  · exact ⟨_, rfl, rfl, rfl⟩
  · exact ⟨_, rfl, rfl, rfl⟩

/-- If `AutoExpire ≤ 0`, no accept iteration sends on `chScavenger`. -/
theorem acceptStep_sent_nil (config : Config) (e : AcceptEvent)
    (st : AcceptorState) (r : StepResult) (hae : config.autoExpire ≤ 0)
    (h : acceptStep config e st = some r) : r.sent = [] := by
  unfold acceptStep at h
  split at h
  · exact absurd h (by simp)
  · split at h <;> injection h with h <;> subst h
    · show (if config.autoExpire > 0 then
          [(⟨some e.fresh, e.now + config.autoExpire⟩ : TimedSession)]
        else []) = []
      rw [if_neg (by omega)]
    · rfl

/-- `runAccepts` on a nonempty event list, written with explicit binds. -/
theorem runAccepts_cons (config : Config) (e : AcceptEvent)
    (es : List AcceptEvent) (st : AcceptorState) :
    runAccepts config st (e :: es) =
      (acceptStep config e st).bind fun r =>
        (runAccepts config r.state es).bind fun rs => some (r :: rs) :=
  rfl

/-!  ## Claim theorems -/

/-- C10: with `Conn = 0` the acceptor's slot computation
`idx := rr % numconn` divides by zero, so the first accepted TCP
connection panics the acceptor and no connection is ever served. -/
theorem C10_conn_zero_panics (config : Config) (e : AcceptEvent)
    (st : AcceptorState) (h : config.conn = 0) :
    acceptStep config e st = none := by
  simp [acceptStep, numconn, h]

/-- Witness for C10 on a concrete zero-`Conn` configuration. -/
theorem C10_conn_zero_panics_witness :
    acceptStep { baseConfig with conn := 0 } ⟨0, 0, fun _ => false⟩
      ⟨0, []⟩ = none :=
  C10_conn_zero_panics _ _ _ rfl

/-- C4 counterexample: `SmuxVer = 0` is outside {1, 2}, yet the startup
parameters check does not reject it — the check is not an iff with
"mux version ∉ {1, 2}". -/
theorem C4_counterexample :
    ¬ (startupFatalSmux { baseConfig with smuxVer := 0 } = true ↔
        ({ baseConfig with smuxVer := 0 } : Config).smuxVer ≠ 1 ∧
        ({ baseConfig with smuxVer := 0 } : Config).smuxVer ≠ 2) := by
  decide

/-- C4 (amended): the startup mux-version check is fatal iff
`SmuxVer > 2`; any version ≤ 2, including 0 and negatives, passes it. -/
theorem C4_amended (config : Config) :
    startupFatalSmux config = true ↔ config.smuxVer > 2 := by
  simp [startupFatalSmux, maxSmuxVer]

/-- C8: if `AutoExpire ≤ 0` the scavenger routine returns without
entering its receive/tick loop, and no execution of the acceptor loop
ever sends a `timedSession` on the scavenger channel. -/
theorem C8_no_scavenging (config : Config) (hae : config.autoExpire ≤ 0) :
    scavengerEntersLoop config = false ∧
    ∀ (events : List AcceptEvent) (st : AcceptorState)
      (rs : List StepResult),
      runAccepts config st events = some rs → ∀ r ∈ rs, r.sent = [] := by
  refine ⟨by simp [scavengerEntersLoop, hae], ?_⟩
  intro events
  induction events with
  | nil =>
      intro st rs hrun r hr
      rw [show runAccepts config st [] = some [] from rfl] at hrun
      injection hrun with hrun
      subst hrun
      simp at hr
  | cons e es ih =>
      intro st rs hrun r hr
      rw [runAccepts_cons, Option.bind_eq_some'] at hrun
      obtain ⟨r1, h1, hrun⟩ := hrun
      rw [Option.bind_eq_some'] at hrun
      obtain ⟨rs', h2, h3⟩ := hrun
      injection h3 with h3
      subst h3
      rcases List.mem_cons.mp hr with rfl | hr'
      · exact acceptStep_sent_nil config e st r hae h1
      · exact ih r1.state rs' h2 r hr'

/-- Witness for C8 at the default configuration (`AutoExpire = 0`). -/
theorem C8_no_scavenging_witness :
    scavengerEntersLoop baseConfig = false :=
  (C8_no_scavenging baseConfig (by decide)).1

/-- C9: the cipher switch keys every cipher from the 32-byte derived key
with the stated truncations, `null` yields no cipher object, `none` a
pass-through cipher, and every name outside the enumerated set behaves
exactly like `aes` with the full 32-byte key (and the config's crypt
name becomes "aes"). -/
theorem C9_crypt_table :
    (∀ c, c ∉ enumeratedCrypts →
        cryptSelect c = ("aes", some ⟨"AES", 32⟩)) ∧
    cryptSelect "aes" = ("aes", some ⟨"AES", 32⟩) ∧
    cryptSelect "aes-128" = ("aes-128", some ⟨"AES", 16⟩) ∧
    cryptSelect "aes-192" = ("aes-192", some ⟨"AES", 24⟩) ∧
    cryptSelect "sm4" = ("sm4", some ⟨"SM4", 16⟩) ∧
    cryptSelect "tea" = ("tea", some ⟨"TEA", 16⟩) ∧
    cryptSelect "xtea" = ("xtea", some ⟨"XTEA", 16⟩) ∧
    cryptSelect "cast5" = ("cast5", some ⟨"Cast5", 16⟩) ∧
    cryptSelect "3des" = ("3des", some ⟨"TripleDES", 24⟩) ∧
    cryptSelect "salsa20" = ("salsa20", some ⟨"Salsa20", 32⟩) ∧
    cryptSelect "blowfish" = ("blowfish", some ⟨"Blowfish", 32⟩) ∧
    cryptSelect "twofish" = ("twofish", some ⟨"Twofish", 32⟩) ∧
    cryptSelect "xor" = ("xor", some ⟨"SimpleXOR", 32⟩) ∧
    cryptSelect "null" = ("null", none) ∧
    cryptSelect "none" = ("none", some ⟨"None", 32⟩) := by
  refine ⟨?_, by decide, by decide, by decide, by decide, by decide,
    by decide, by decide, by decide, by decide, by decide, by decide,
    by decide, by decide, by decide⟩
  intro c hc
  simp only [enumeratedCrypts, List.mem_cons, List.not_mem_nil, or_false,
    not_or] at hc
  obtain ⟨h1, h2, h3, h4, h5, h6, h7, h8, h9, h10, h11, h12, h13⟩ := hc
  simp [cryptSelect, h1, h2, h3, h4, h5, h6, h7, h8, h9, h10, h11, h12, h13]

/-- Witness for C9: an unknown crypt name falls back to aes/32. -/
theorem C9_crypt_table_witness :
    cryptSelect "chacha" = ("aes", some ⟨"AES", 32⟩) :=
  C9_crypt_table.1 "chacha" (by decide)

/-- C5: on an accepted connection the chosen pool slot is refilled iff it
is stale — nil session, or session reports closed, or `AutoExpire > 0`
and now is strictly after the slot's expiry.  A refill stores a fresh
session with expiry `now + AutoExpire`; a non-stale slot is handed to the
new stream as-is, with the pool unchanged. -/
theorem C5_refill_iff_stale (config : Config) (e : AcceptEvent)
    (st : AcceptorState) (h0 : numconn config ≠ 0) :
    ∃ r, acceptStep config e st = some r ∧
      (r.refilled = true ↔
        ((st.muxes.getD (st.rr % numconn config) ⟨none, 0⟩).session = none ∨
         (∃ sid, (st.muxes.getD (st.rr % numconn config) ⟨none, 0⟩).session
             = some sid ∧ e.closedEnv sid = true) ∨
         (0 < config.autoExpire ∧
          (st.muxes.getD (st.rr % numconn config) ⟨none, 0⟩).expiryDate
            < e.now))) ∧
      (r.refilled = true →
        r.state.muxes = st.muxes.set (st.rr % numconn config)
          ⟨some e.fresh, e.now + config.autoExpire⟩ ∧
        r.opened = some e.fresh) ∧
      (r.refilled = false →
        r.opened = (st.muxes.getD (st.rr % numconn config) ⟨none, 0⟩).session
          ∧ r.state.muxes = st.muxes) := by
  unfold acceptStep
  rw [if_neg h0]
  by_cases hs : slotStale config e.closedEnv e.now
      (st.muxes.getD (st.rr % numconn config) ⟨none, 0⟩) = true
  · rw [if_pos hs]
    refine ⟨_, rfl, ?_, fun _ => ⟨rfl, rfl⟩, fun hf => absurd hf (by simp)⟩
    exact iff_of_true rfl ((slotStale_iff _ _ _ _).mp hs)
  · rw [if_neg hs]
    refine ⟨_, rfl, ?_, fun hf => absurd hf (by simp), fun _ => ⟨rfl, rfl⟩⟩
    constructor
    · intro hf
      exact absurd hf (by simp)
    · intro hspec
      exact absurd ((slotStale_iff _ _ _ _).mpr hspec) hs

/-- Witness for C5: a never-filled slot (nil session) is stale and gets
refilled with the dialed session. -/
theorem C5_refill_iff_stale_witness :
    ∃ r, acceptStep baseConfig ⟨0, 7, fun _ => false⟩ ⟨0, [⟨none, 0⟩]⟩
        = some r ∧
      (r.refilled = true ↔
        ((none : Option Nat) = none ∨
         (∃ sid, (none : Option Nat) = some sid ∧ false = true) ∨
         (0 < baseConfig.autoExpire ∧ (0 : Int) < 0))) ∧
      (r.refilled = true →
        r.state.muxes = [⟨some 7, 0⟩] ∧ r.opened = some 7) ∧
      (r.refilled = false →
        r.opened = (none : Option Nat) ∧ r.state.muxes = [⟨none, 0⟩]) :=
  C5_refill_iff_stale baseConfig ⟨0, 7, fun _ => false⟩ ⟨0, [⟨none, 0⟩]⟩
    (by decide)

/-- The round-robin bookkeeping of one accept iteration: the counter
advances by one modulo 2^16 and the chosen slot is `rr % numconn`. -/
theorem acceptStep_rr (config : Config) (e : AcceptEvent)
    (st : AcceptorState) (r : StepResult)
    (h : acceptStep config e st = some r) :
    r.state.rr = (st.rr + 1) % 65536 ∧ r.idx = st.rr % numconn config := by
  unfold acceptStep at h
  split at h
  · exact absurd h (by simp)
  · split at h <;> injection h with h <;> subst h <;> exact ⟨rfl, rfl⟩

/-- Over a whole run, the k-th accept uses slot
`((rr₀ + k) mod 2^16) mod numconn`. -/
theorem runAccepts_idx (config : Config) :
    ∀ (events : List AcceptEvent) (st : AcceptorState)
      (rs : List StepResult),
      st.rr < 65536 → runAccepts config st events = some rs →
      ∀ k r, rs.get? k = some r →
        r.idx = ((st.rr + k) % 65536) % numconn config := by
  intro events
  induction events with
  | nil =>
      intro st rs _ hrun k r hk
      rw [show runAccepts config st [] = some [] from rfl] at hrun
      injection hrun with hrun
      subst hrun
      simp at hk
  | cons e es ih =>
      intro st rs hlt hrun k r hk
      rw [runAccepts_cons, Option.bind_eq_some'] at hrun
      obtain ⟨r1, h1, hrun⟩ := hrun
      rw [Option.bind_eq_some'] at hrun
      obtain ⟨rs', h2, h3⟩ := hrun
      injection h3 with h3
      subst h3
      obtain ⟨hrr, hidx⟩ := acceptStep_rr config e st r1 h1
      cases k with
      | zero =>
          rw [List.get?_cons_zero] at hk
          injection hk with hk
          subst hk
          rw [hidx, Nat.add_zero, Nat.mod_eq_of_lt hlt]
      | succ k =>
          rw [List.get?_cons_succ] at hk
          have hlt' : r1.state.rr < 65536 := by
            rw [hrr]; exact Nat.mod_lt _ (by omega)
          have h4 := ih r1.state rs' hlt' h2 k r hk
          rw [h4, hrr, Nat.mod_add_mod]
          have : st.rr + 1 + k = st.rr + (k + 1) := by omega
          rw [this]

/-- C6 counterexample: with `Conn = 65537` the pool has
`uint16(Conn) = 1` slot (the counter is taken modulo `Conn mod 2^16`,
not modulo `Conn`), so the accept with k = 1 is dispatched to slot 0,
while the claim's formula `(k mod 2^16) mod Conn` gives slot 1. -/
theorem C6_counterexample :
    (runAccepts { baseConfig with conn := 65537 }
        ⟨0, initMuxes { baseConfig with conn := 65537 }⟩
        [⟨0, 7, fun _ => false⟩, ⟨1, 8, fun _ => false⟩]).map
        (fun rs => rs.map StepResult.idx) = some [0, 0] ∧
    ¬((1 % 65536) % 65537 = 0) := by
  constructor
  · decide
  · decide

/-- C6 (amended): whenever `0 < Conn < 2^16` (so Go's `uint16(Conn)`
equals `Conn`), the k-th accepted connection is dispatched to slot
`(k mod 2^16) mod Conn`; the acceptor's 16-bit counter starts at 0 and
increments (wrapping) after each dispatch. -/
theorem C6_round_robin (config : Config) (events : List AcceptEvent)
    (h1 : 0 < config.conn) (h2 : config.conn < 65536)
    (rs : List StepResult)
    (hrun : runAccepts config ⟨0, initMuxes config⟩ events = some rs)
    (k : Nat) (r : StepResult) (hk : rs.get? k = some r) :
    r.idx = (k % 65536) % config.conn.toNat := by
  have hnc : numconn config = config.conn.toNat := by
    unfold numconn
    rw [Int.emod_eq_of_lt (by omega) (by omega)]
  have h := runAccepts_idx config events ⟨0, initMuxes config⟩ rs
    (by show (0 : Nat) < 65536; omega) hrun k r hk
  rw [hnc] at h
  simpa using h

/-- Witness for C6 (amended) on a one-slot pool and a single accept. -/
theorem C6_round_robin_witness :
    (⟨⟨1, [⟨some 7, 0⟩]⟩, [], some 7, true, 0⟩ : StepResult).idx
      = (0 % 65536) % (1 : Int).toNat :=
  C6_round_robin baseConfig [⟨0, 7, fun _ => false⟩] (by decide) (by decide)
    [⟨⟨1, [⟨some 7, 0⟩]⟩, [], some 7, true, 0⟩] (by decide) 0 _ rfl

/-- C7: the scavenger stores each received `timedSession` with its expiry
extended by `ScavengeTTL` seconds, and a tick removes exactly the entries
whose session reports closed (logged as a normal close) together with the
not-closed entries whose adjusted expiry is strictly past (whose sessions
get `Close()` called, logged as a ttl close), keeping all others in
order. -/
theorem C7_scavenger (config : Config) (item : TimedSession)
    (closedEnv : Nat → Bool) (now : Int) (l : List TimedSession)
    (hl : ∀ s ∈ l, s.session.isSome = true) :
    scavengeRecv config item l =
      l ++ [⟨item.session, item.expiryDate + config.scavengeTTL⟩] ∧
    scavengeTick closedEnv now l = some
      (l.filter fun s => !sessClosed closedEnv s
          && !decide (s.expiryDate < now),
       l.filter fun s => sessClosed closedEnv s,
       l.filter fun s => !sessClosed closedEnv s
          && decide (s.expiryDate < now)) := by
  refine ⟨rfl, ?_⟩
  induction l with
  | nil => rfl
  | cons s rest ih =>
      obtain ⟨sid, hsid⟩ := Option.isSome_iff_exists.mp
        (hl s (List.mem_cons_self s rest))
      have IH := ih fun x hx => hl x (List.mem_cons_of_mem s hx)
      have hsc : sessClosed closedEnv s = closedEnv sid := by
        simp [sessClosed, hsid]
      rw [show scavengeTick closedEnv now (s :: rest) =
            s.session.bind (fun sid =>
              (scavengeTick closedEnv now rest).bind fun r =>
                if closedEnv sid then some (r.1, s :: r.2.1, r.2.2)
                else if now > s.expiryDate then
                  some (r.1, r.2.1, s :: r.2.2)
                else some (s :: r.1, r.2.1, r.2.2)) from rfl,
          hsid, Option.some_bind', IH, Option.some_bind']
      cases hc : closedEnv sid with
      | true =>
          simp [List.filter_cons, hsc, hc]
      | false =>
          by_cases hd : s.expiryDate < now
          · rw [if_neg (by simp [hc]), if_pos hd]
            simp [List.filter_cons, hsc, hc, hd]
          · rw [if_neg (by simp [hc]), if_neg hd]
            simp [List.filter_cons, hsc, hc, hd]

/-- Witness for C7 on a concrete session list: one closed session, one
expired session, one live session. -/
theorem C7_scavenger_witness :
    scavengeRecv baseConfig ⟨some 4, 2⟩
        [⟨some 1, 3⟩, ⟨some 2, 9⟩, ⟨some 3, 5⟩] =
      [⟨some 1, 3⟩, ⟨some 2, 9⟩, ⟨some 3, 5⟩] ++ [⟨some 4, 602⟩] ∧
    scavengeTick (fun n => n == 2) 5 [⟨some 1, 3⟩, ⟨some 2, 9⟩, ⟨some 3, 5⟩]
      = some ([⟨some 3, 5⟩], [⟨some 2, 9⟩], [⟨some 1, 3⟩]) :=
  C7_scavenger baseConfig ⟨some 4, 2⟩ (fun n => n == 2) 5
    [⟨some 1, 3⟩, ⟨some 2, 9⟩, ⟨some 3, 5⟩] (by decide)

/-- C1 counterexample: with `AutoExpire = 10` and an empty slot, the first
accept dials session 7, sends it (the NEW session) on the scavenger
channel, and the second accepted connection opens its stream on that very
session 7 — a session handed to the scavenger is reused for a new
stream. -/
theorem C1_counterexample :
    ¬ scavengedNeverReused2 { baseConfig with autoExpire := 10 }
        ⟨0, [⟨none, 0⟩]⟩ ⟨0, 7, fun _ => false⟩ ⟨1, 8, fun _ => false⟩ := by
  intro h
  exact h ⟨⟨1, [⟨some 7, 10⟩]⟩, [⟨some 7, 10⟩], some 7, true, 0⟩
      ⟨⟨2, [⟨some 7, 10⟩]⟩, [], some 7, false, 0⟩ ⟨some 7, 10⟩
      (by decide) (by decide) (List.mem_singleton.mpr rfl) rfl

/-- C1 (amended): with `AutoExpire > 0` it is the freshly dialed session
that is sent on the scavenger channel (paired with expiry
`now + AutoExpire`), and it keeps serving later accepted connections: a
subsequent accept that finds it not closed and not expired opens its
stream on that same, already-scavenger-enqueued session. -/
theorem C1_scavenged_reuse (config : Config) (st : AcceptorState)
    (e1 e2 : AcceptEvent) (hconn : config.conn = 1)
    (hae : 0 < config.autoExpire) (hlen : st.muxes.length = 1)
    (hstale : slotStale config e1.closedEnv e1.now
        (st.muxes.getD 0 ⟨none, 0⟩) = true)
    (hclosed2 : e2.closedEnv e1.fresh = false)
    (hexp2 : e2.now ≤ e1.now + config.autoExpire) :
    ∃ r1 r2, acceptStep config e1 st = some r1 ∧
      acceptStep config e2 r1.state = some r2 ∧
      r1.sent = [⟨some e1.fresh, e1.now + config.autoExpire⟩] ∧
      r1.opened = some e1.fresh ∧
      r2.refilled = false ∧ r2.sent = [] ∧
      r2.opened = some e1.fresh := by
  have hnc : numconn config = 1 := by
    unfold numconn
    rw [hconn]
    decide
  obtain ⟨a, hm⟩ : ∃ a, st.muxes = [a] := by
    cases hmu : st.muxes with
    | nil => rw [hmu] at hlen; simp at hlen
    | cons a t =>
        cases t with
        | nil => exact ⟨a, rfl⟩
        | cons b t' => rw [hmu] at hlen; simp at hlen
  have h1 : acceptStep config e1 st =
      some ⟨⟨(st.rr + 1) % 65536,
             [⟨some e1.fresh, e1.now + config.autoExpire⟩]⟩,
        [⟨some e1.fresh, e1.now + config.autoExpire⟩],
        some e1.fresh, true, 0⟩ := by
    unfold acceptStep
    rw [hnc, if_neg (by omega), Nat.mod_one, hm]
    rw [if_pos (by rw [hm] at hstale; simpa using hstale)]
    rw [if_pos hae]
    rfl
  have h2 : acceptStep config e2
      (⟨(st.rr + 1) % 65536,
        [⟨some e1.fresh, e1.now + config.autoExpire⟩]⟩ : AcceptorState) =
      some ⟨⟨((st.rr + 1) % 65536 + 1) % 65536,
             [⟨some e1.fresh, e1.now + config.autoExpire⟩]⟩,
        [], some e1.fresh, false, 0⟩ := by
    unfold acceptStep
    rw [hnc, if_neg (by omega), Nat.mod_one]
    rw [if_neg (by
      simp only [List.getD_cons_zero, slotStale, hclosed2, Bool.false_or,
        Bool.and_eq_true, decide_eq_true_eq, not_and]
      intro _
      omega)]
    rfl
  exact ⟨_, _, h1, h2, rfl, rfl, rfl, rfl, rfl⟩

/-- Witness for C1 (amended) on concrete data: session 7 is enqueued to
the scavenger and the next accept still opens its stream on session 7. -/
theorem C1_scavenged_reuse_witness :
    ∃ r1 r2, acceptStep { baseConfig with autoExpire := 10 }
        ⟨0, 7, fun _ => false⟩ ⟨0, [⟨none, 0⟩]⟩ = some r1 ∧
      acceptStep { baseConfig with autoExpire := 10 }
        ⟨1, 8, fun _ => false⟩ r1.state = some r2 ∧
      r1.sent = [⟨some 7, 10⟩] ∧
      r1.opened = some 7 ∧
      r2.refilled = false ∧ r2.sent = [] ∧
      r2.opened = some 7 :=
  C1_scavenged_reuse { baseConfig with autoExpire := 10 }
    ⟨0, [⟨none, 0⟩]⟩ ⟨0, 7, fun _ => false⟩ ⟨1, 8, fun _ => false⟩
    rfl (by decide) rfl (by decide) rfl (by decide)

/-- C2 counterexample: the line `"fec"` has a first token containing
"fec" but only one token, so the reader indexes `message[1]` out of
range and panics instead of logging and ignoring the malformed line. -/
theorem C2_counterexample :
    fifoStep baseConfig [] "fec" = none := by decide

/-- C2 (amended): the FIFO reader survives every line EXCEPT one
recognized as `fec` (first token contains "fec") with fewer than three
tokens, which panics it; a line whose first token does not contain "fec"
is logged "Unknown call" and changes nothing. -/
theorem C2_fifo_safety (config : Config) (connes : List (Option Nat))
    (line : String) :
    ((fifoStep config connes line).isSome = true ↔
      ¬(hasSub "fec".data ((splitLine line).headD "").data = true ∧
        (splitLine line).length < 3)) ∧
    (hasSub "fec".data ((splitLine line).headD "").data = false →
      fifoStep config connes line = some ⟨config, [], true⟩) := by
  by_cases hrec : hasSub "fec".data ((splitLine line).headD "").data = true
  · by_cases hlen : (splitLine line).length < 3
    · rw [show fifoStep config connes line = none by
        unfold fifoStep; rw [if_pos hrec, if_pos hlen]]
      constructor
      · exact iff_of_false (by simp) fun h => h ⟨hrec, hlen⟩
      · intro hf
        rw [hf] at hrec
        cases hrec
    · obtain ⟨v, hv⟩ : ∃ v, fifoStep config connes line = some v := by
        unfold fifoStep
        rw [if_pos hrec, if_neg hlen]
        split
        · exact ⟨_, rfl⟩
        · exact ⟨_, rfl⟩
      rw [hv]
      constructor
      · exact iff_of_true rfl fun h => hlen h.2
      · intro hf
        rw [hf] at hrec
        cases hrec
  · have hx : fifoStep config connes line = some ⟨config, [], true⟩ := by
      unfold fifoStep
      rw [if_neg hrec]
    rw [hx]
    exact ⟨iff_of_true rfl fun h => hrec h.1, fun _ => rfl⟩

/-- Witness for C2 (amended): an unrecognized line is logged "Unknown
call" and handled without a crash. -/
theorem C2_fifo_safety_witness :
    fifoStep baseConfig [] "hello world" = some ⟨baseConfig, [], true⟩ :=
  (C2_fifo_safety baseConfig [] "hello world").2 (by decide)

/-- C3 counterexample: the line `"defect 7 8"` has first token
`"defect"`, which is not `"fec"`, yet it is applied as the `fec` command
(the config's shard counts become (7, 8) and `SetFEC` is invoked),
because recognition is by substring containment, not token equality. -/
theorem C3_counterexample :
    fifoStep baseConfig [some 0] "defect 7 8" =
      some ⟨{ baseConfig with dataShard := 7, parityShard := 8 },
            [0], false⟩ ∧
    ¬((splitLine "defect 7 8").headD "" = "fec") := by
  constructor
  · decide
  · decide

/-- C3 (amended): a line is recognized as the `fec` command iff its first
token CONTAINS "fec" as a substring.  For a recognized line with at least
three tokens: if `(ds, ps)` equals the current shard counts nothing
changes, otherwise the config is updated and `SetFEC(ds, ps)` is invoked
on exactly the non-nil transport slots; a numeric field that fails to
parse is silently treated as zero. -/
theorem C3_fifo_fec (config : Config) (connes : List (Option Nat))
    (line : String) (m0 m1 m2 : String) (rest : List String)
    (hsplit : splitLine line = m0 :: m1 :: m2 :: rest)
    (hrec : hasSub "fec".data m0.data = true) :
    (atoi m1 = config.dataShard ∧ atoi m2 = config.parityShard →
      fifoStep config connes line = some ⟨config, [], false⟩) ∧
    (¬(atoi m1 = config.dataShard ∧ atoi m2 = config.parityShard) →
      fifoStep config connes line =
        some ⟨{ config with dataShard := atoi m1, parityShard := atoi m2 },
              fecCallIdx connes, false⟩) ∧
    (∀ s, parseIntChars s.data = none → atoi s = 0) := by
  have hstep : fifoStep config connes line =
      if atoi m1 ≠ config.dataShard ∨ atoi m2 ≠ config.parityShard then
        some ⟨{ config with dataShard := atoi m1, parityShard := atoi m2 },
              fecCallIdx connes, false⟩
      else some ⟨config, [], false⟩ := by
    unfold fifoStep
    rw [hsplit]
    simp only [List.headD_cons, List.length_cons, List.getD_cons_zero,
      List.getD_cons_succ]
    rw [if_pos hrec, if_neg (by omega)]
  refine ⟨?_, ?_, fun s hs => by simp [atoi, hs]⟩
  · rintro ⟨hd, hp⟩
    rw [hstep, if_neg (by tauto)]
  · intro hne
    rw [hstep, if_pos (by tauto)]

/-- Witness for C3 (amended): `fec 20 5` updates the shard counts and
calls `SetFEC` on the non-nil slot. -/
theorem C3_fifo_fec_witness :
    fifoStep baseConfig [some 0, none] "fec 20 5" =
      some ⟨{ baseConfig with dataShard := 20, parityShard := 5 },
            [0], false⟩ :=
  (C3_fifo_fec baseConfig [some 0, none] "fec 20 5" "fec" "20" "5" []
      (by decide) (by decide)).2.1 (by decide)

end Kcptun
